import Mathlib

set_option maxHeartbeats 1000000
set_option maxRecDepth 4000
set_option linter.unusedVariables false

/-!
Shallow embedding of the `frameworks` repository:

* `frameworks/_common/mlrun_interface.py` — `MLRunInterface` with
  `add_interface`, `_insert_properties`, `_insert_methods`, `_insert_functions`;
* `frameworks/pytorch/callbacks/callback.py` — the `Callback` base class and
  its lifecycle hooks;
* `frameworks/pytorch/__init__.py` — the `train` and `evaluate` entry points.

Python objects are modelled by an attribute dictionary (an association list
keyed by attribute name, Python dict semantics: update in place, append new
keys at the end) together with a numeric object identity.  `__dir__()` is the
list of attribute names, `setattr`/`getattr` are dictionary update and lookup.
Calls into the external `PyTorchMLRunInterface` (whose implementation is not
part of the embedded files) are modelled as an emitted trace of call events.
-/

/-- Python attribute values: opaque data, a reference to an object (by its
identity), or a bound method `MethodType(f, obj)` pairing an underlying
function value with the identity of the object it is bound to. -/
inductive PyVal : Type where
  | data : Nat → PyVal
  | objRef : Nat → PyVal
  | bound : PyVal → Nat → PyVal
deriving DecidableEq

/-- Python call protocol, reduced to what matters here: calling a bound method
`MethodType(f, obj)` with `args` invokes the underlying `f` with the bound
object prepended as the first (`self`) argument; calling any other value
invokes it on `args` unchanged. The result is the pair (invoked function,
actual argument list). -/
def PyVal.callWith : PyVal → List PyVal → PyVal × List PyVal
  | PyVal.bound f b, args => (f, PyVal.objRef b :: args)
  | v, args => (v, args)

/-- Lookup in a Python-dict-like association list (first binding wins; there
is at most one binding per key when built by `setAttrList`). -/
def lookupList {α : Type} : List (String × α) → String → Option α
  | [], _ => none
  | p :: rest, n => if p.1 = n then some p.2 else lookupList rest n

/-- Python dict assignment `d[n] = v`: overwrite the existing binding in
place, or append a new binding at the end (insertion order preserved). -/
def setAttrList {α : Type} : List (String × α) → String → α → List (String × α)
  | [], n, v => [(n, v)]
  | p :: rest, n, v => if p.1 = n then (n, v) :: rest else p :: setAttrList rest n v

/-- The keys of an association list, in order. -/
def keysOf {α : Type} (l : List (String × α)) : List String := l.map Prod.fst

/-- A Python object: an identity (for `MethodType` binding) and its attribute
dictionary. -/
structure PyObject : Type where
  id : Nat
  attrs : List (String × PyVal)
deriving DecidableEq

/-- `model.__dir__()`: the attribute names of the object. -/
def PyObject.dir (o : PyObject) : List String := keysOf o.attrs

/-- `getattr(model, n)`: `none` models an `AttributeError`. -/
def PyObject.getattr (o : PyObject) (n : String) : Option PyVal :=
  lookupList o.attrs n

/-- `setattr(model, n, v)`. -/
def PyObject.setattr (o : PyObject) (n : String) (v : PyVal) : PyObject :=
  PyObject.mk o.id (setAttrList o.attrs n v)

/-- A concrete `MLRunInterface` subclass: its `_PROPERTIES` dictionary (name →
default value, in insertion order), its `_METHODS` and `_FUNCTIONS` name
lists, and the class attribute dictionary that `getattr(interface, name)`
consults. -/
structure Interface : Type where
  _PROPERTIES : List (String × PyVal)
  _METHODS : List String
  _FUNCTIONS : List String
  classAttrs : List (String × PyVal)
deriving DecidableEq

/-- `getattr(interface, n)` on the interface class. -/
def Interface.getClassAttr (i : Interface) (n : String) : Option PyVal :=
  lookupList i.classAttrs n

/-- The loop body of `MLRunInterface._insert_properties`: for each
`(property_name, default_value)` in `_PROPERTIES`, if the name is not in
`model.__dir__()`, `setattr` it to the default value. -/
def MLRunInterface.insertPropertiesLoop : List (String × PyVal) → PyObject → PyObject
  | [], model => model
  | p :: rest, model =>
      MLRunInterface.insertPropertiesLoop rest
        (if p.1 ∈ model.dir then model else model.setattr p.1 p.2)

/-- `MLRunInterface._insert_properties(model, interface)`. -/
def MLRunInterface._insert_properties (model : PyObject) (interface : Interface) :
    PyObject :=
  MLRunInterface.insertPropertiesLoop interface._PROPERTIES model

/-- The loop body of `MLRunInterface._insert_methods`: for each name in
`_METHODS` not present in `model.__dir__()`, `setattr` the name to
`MethodType(getattr(interface, name), model)`. A missing class attribute is
an `AttributeError`, modelled as `Except.error` carrying the name. -/
def MLRunInterface.insertMethodsLoop (interface : Interface) :
    List String → PyObject → Except String PyObject
  | [], model => Except.ok model
  | n :: rest, model =>
      if n ∈ model.dir then
        MLRunInterface.insertMethodsLoop interface rest model
      else
        match interface.getClassAttr n with
        | some f =>
            MLRunInterface.insertMethodsLoop interface rest
              (model.setattr n (PyVal.bound f model.id))
        | none => Except.error n

/-- `MLRunInterface._insert_methods(model, interface)`. -/
def MLRunInterface._insert_methods (model : PyObject) (interface : Interface) :
    Except String PyObject :=
  MLRunInterface.insertMethodsLoop interface interface._METHODS model

/-- The loop body of `MLRunInterface._insert_functions`: for each name in
`_FUNCTIONS` not present in `model.__dir__()`, `setattr` the name to
`getattr(interface, name)` exactly as retrieved, with no binding. -/
def MLRunInterface.insertFunctionsLoop (interface : Interface) :
    List String → PyObject → Except String PyObject
  | [], model => Except.ok model
  | n :: rest, model =>
      if n ∈ model.dir then
        MLRunInterface.insertFunctionsLoop interface rest model
      else
        match interface.getClassAttr n with
        | some f =>
            MLRunInterface.insertFunctionsLoop interface rest (model.setattr n f)
        | none => Except.error n

/-- `MLRunInterface._insert_functions(model, interface)`. -/
def MLRunInterface._insert_functions (model : PyObject) (interface : Interface) :
    Except String PyObject :=
  MLRunInterface.insertFunctionsLoop interface interface._FUNCTIONS model

/-- The default body of `MLRunInterface.add_interface(cls, model)`: insert the
properties, then the methods, then the functions of the interface class. -/
def MLRunInterface.add_interface (cls : Interface) (model : PyObject) :
    Except String PyObject := do
  let m1 := MLRunInterface._insert_properties model cls
  let m2 ← MLRunInterface._insert_methods m1 cls
  MLRunInterface._insert_functions m2 cls

/-- Return value of a callback hook: Python `None` (a body that is `pass` or
falls off the end) or a boolean. -/
inductive HookRet : Type where
  | none : HookRet
  | bool : Bool → HookRet
deriving DecidableEq

/-- The `Callback` base class state: its `_objects` dictionary (values may be
Python `None`, modelled as `Option.none`). `__init__` sets it to `{}`. -/
structure Callback : Type where
  _objects : List (String × Option PyVal)
deriving DecidableEq

/-- `Callback._ObjectKeys.MODEL`. -/
def Callback.keyMODEL : String := "model"

/-- `Callback._ObjectKeys.TRAINING_SET`. -/
def Callback.keyTRAINING_SET : String := "training_set"

/-- `Callback._ObjectKeys.VALIDATION_SET`. -/
def Callback.keyVALIDATION_SET : String := "validation_set"

/-- `Callback._ObjectKeys.LOSS_FUNCTION`. -/
def Callback.keyLOSS_FUNCTION : String := "loss_function"

/-- `Callback._ObjectKeys.OPTIMIZER`. -/
def Callback.keyOPTIMIZER : String := "optimizer"

/-- `Callback._ObjectKeys.METRIC_FUNCTIONS`. -/
def Callback.keyMETRIC_FUNCTIONS : String := "metric_functions"

/-- `Callback._ObjectKeys.SCHEDULER`. -/
def Callback.keySCHEDULER : String := "scheduler"

/-- `Callback.__init__`: `self._objects = {}`. -/
def Callback.init : Callback := Callback.mk []

/-- `Callback.on_horovod_check(rank)`: declared to return `bool`, body `pass`
(returns `None`). -/
def Callback.on_horovod_check (self : Callback) (rank : Int) : Callback × HookRet :=
  (self, HookRet.none)

/-- `Callback.on_setup(...)`: stores all seven arguments (each defaults to
`None` in the source) into `self._objects` under the `_ObjectKeys` keys, in
source order, and returns `None`. -/
def Callback.on_setup (self : Callback) (model training_set validation_set
    loss_function optimizer metric_functions scheduler : Option PyVal) :
    Callback × HookRet :=
  (Callback.mk
    (setAttrList
      (setAttrList
        (setAttrList
          (setAttrList
            (setAttrList
              (setAttrList
                (setAttrList self._objects Callback.keyMODEL model)
                Callback.keyTRAINING_SET training_set)
              Callback.keyVALIDATION_SET validation_set)
            Callback.keyLOSS_FUNCTION loss_function)
          Callback.keyOPTIMIZER optimizer)
        Callback.keyMETRIC_FUNCTIONS metric_functions)
      Callback.keySCHEDULER scheduler),
   HookRet.none)

/-- `Callback.on_run_begin()`: body `pass`. -/
def Callback.on_run_begin (self : Callback) : Callback × HookRet :=
  (self, HookRet.none)

/-- `Callback.on_run_end()`: body `pass`. -/
def Callback.on_run_end (self : Callback) : Callback × HookRet :=
  (self, HookRet.none)

/-- `Callback.on_epoch_begin(epoch)`: body `pass`. -/
def Callback.on_epoch_begin (self : Callback) (epoch : Int) : Callback × HookRet :=
  (self, HookRet.none)

/-- `Callback.on_epoch_end(epoch)`: body `pass`. -/
def Callback.on_epoch_end (self : Callback) (epoch : Int) : Callback × HookRet :=
  (self, HookRet.none)

/-- `Callback.on_train_begin()`: body `pass`. -/
def Callback.on_train_begin (self : Callback) : Callback × HookRet :=
  (self, HookRet.none)

/-- `Callback.on_train_end()`: body `pass`. -/
def Callback.on_train_end (self : Callback) : Callback × HookRet :=
  (self, HookRet.none)

/-- `Callback.on_validation_begin()`: body `pass`. -/
def Callback.on_validation_begin (self : Callback) : Callback × HookRet :=
  (self, HookRet.none)

/-- `Callback.on_validation_end(loss_value, metric_values)`: body `pass`. -/
def Callback.on_validation_end (self : Callback) (loss_value : PyVal)
    (metric_values : List PyVal) : Callback × HookRet :=
  (self, HookRet.none)

/-- `Callback.on_train_batch_begin(batch, x, y_true)`: body `pass`. -/
def Callback.on_train_batch_begin (self : Callback) (batch : Int)
    (x y_true : PyVal) : Callback × HookRet :=
  (self, HookRet.none)

/-- `Callback.on_train_batch_end(batch, x, y_true, y_pred)`: body `pass`. -/
def Callback.on_train_batch_end (self : Callback) (batch : Int)
    (x y_true y_pred : PyVal) : Callback × HookRet :=
  (self, HookRet.none)

/-- `Callback.on_validation_batch_begin(batch, x, y_true)`: body `pass`. -/
def Callback.on_validation_batch_begin (self : Callback) (batch : Int)
    (x y_true : PyVal) : Callback × HookRet :=
  (self, HookRet.none)

/-- `Callback.on_validation_batch_end(batch, x, y_true, y_pred)`: body `pass`. -/
def Callback.on_validation_batch_end (self : Callback) (batch : Int)
    (x y_true y_pred : PyVal) : Callback × HookRet :=
  (self, HookRet.none)

/-- `Callback.on_train_loss_begin()`: body `pass`. -/
def Callback.on_train_loss_begin (self : Callback) : Callback × HookRet :=
  (self, HookRet.none)

/-- `Callback.on_train_loss_end(loss_value)`: body `pass`. -/
def Callback.on_train_loss_end (self : Callback) (loss_value : PyVal) :
    Callback × HookRet :=
  (self, HookRet.none)

/-- `Callback.on_validation_loss_begin()`: body `pass`. -/
def Callback.on_validation_loss_begin (self : Callback) : Callback × HookRet :=
  (self, HookRet.none)

/-- `Callback.on_validation_loss_end(loss_value)`: body `pass`. -/
def Callback.on_validation_loss_end (self : Callback) (loss_value : PyVal) :
    Callback × HookRet :=
  (self, HookRet.none)

/-- `Callback.on_train_metrics_begin()`: body `pass`. -/
def Callback.on_train_metrics_begin (self : Callback) : Callback × HookRet :=
  (self, HookRet.none)

/-- `Callback.on_train_metrics_end(metric_values)`: body `pass`. -/
def Callback.on_train_metrics_end (self : Callback) (metric_values : List PyVal) :
    Callback × HookRet :=
  (self, HookRet.none)

/-- `Callback.on_validation_metrics_begin()`: body `pass`. -/
def Callback.on_validation_metrics_begin (self : Callback) : Callback × HookRet :=
  (self, HookRet.none)

/-- `Callback.on_validation_metrics_end(metric_values)`: body `pass`. -/
def Callback.on_validation_metrics_end (self : Callback)
    (metric_values : List PyVal) : Callback × HookRet :=
  (self, HookRet.none)

/-- `Callback.on_backward_begin()`: body `pass`. -/
def Callback.on_backward_begin (self : Callback) : Callback × HookRet :=
  (self, HookRet.none)

/-- `Callback.on_backward_end()`: body `pass`. -/
def Callback.on_backward_end (self : Callback) : Callback × HookRet :=
  (self, HookRet.none)

/-- `Callback.on_optimizer_step_begin()`: body `pass`. -/
def Callback.on_optimizer_step_begin (self : Callback) : Callback × HookRet :=
  (self, HookRet.none)

/-- `Callback.on_optimizer_step_end()`: body `pass`. -/
def Callback.on_optimizer_step_end (self : Callback) : Callback × HookRet :=
  (self, HookRet.none)

/-- `Callback.on_scheduler_step_begin()`: body `pass`. -/
def Callback.on_scheduler_step_begin (self : Callback) : Callback × HookRet :=
  (self, HookRet.none)

/-- `Callback.on_scheduler_step_end()`: body `pass`. -/
def Callback.on_scheduler_step_end (self : Callback) : Callback × HookRet :=
  (self, HookRet.none)

/-- `Callback.on_call_check()`: body `return True`. -/
def Callback.on_call_check (self : Callback) : Callback × HookRet :=
  (self, HookRet.bool true)

/-- The arguments of `frameworks.pytorch.train`, in source order. In the
source `validation_set`, `metric_functions`, `scheduler`,
`training_iterations`, `validation_iterations`, `callbacks_list`, `context`
and `custom_objects` default to `None`, `epochs` to `1`, `use_cuda` to
`True`, `use_horovod` to `False` and `auto_log` to `True`. -/
structure TrainArgs : Type where
  model : PyVal
  training_set : PyVal
  loss_function : PyVal
  optimizer : PyVal
  validation_set : Option PyVal
  metric_functions : Option PyVal
  scheduler : Option PyVal
  epochs : Int
  training_iterations : Option Int
  validation_iterations : Option Int
  callbacks_list : Option PyVal
  use_cuda : Bool
  use_horovod : Bool
  auto_log : Bool
  context : Option PyVal
  custom_objects : Option PyVal
deriving DecidableEq

/-- The arguments of `frameworks.pytorch.evaluate`, in source order. In the
source `loss_function`, `metric_functions`, `iterations`, `callbacks_list`,
`context` and `custom_objects` default to `None`, `use_cuda` to `True`,
`use_horovod` to `False` and `auto_log` to `True`. -/
structure EvaluateArgs : Type where
  model : PyVal
  dataset : PyVal
  loss_function : Option PyVal
  metric_functions : Option PyVal
  iterations : Option Int
  callbacks_list : Option PyVal
  use_cuda : Bool
  use_horovod : Bool
  auto_log : Bool
  context : Option PyVal
  custom_objects : Option PyVal
deriving DecidableEq

/-- The externally observable calls `train` / `evaluate` make into the
external `PyTorchMLRunInterface` (whose implementation lives outside the
embedded files), each recording the exact arguments passed. The single
trainer (resp. evaluator) object returned by the init call is the implicit
receiver of the later calls of the same trace. -/
inductive CallEvent : Type where
  | initTrainer (model training_set loss_function optimizer : PyVal)
      (validation_set metric_functions scheduler : Option PyVal) (epochs : Int)
      (training_iterations validation_iterations : Option Int)
      (callbacks : Option PyVal) (use_cuda use_horovod : Bool)
  | initEvaluator (model dataset : PyVal)
      (loss_function metric_functions : Option PyVal) (iterations : Option Int)
      (callbacks : Option PyVal) (use_cuda use_horovod : Bool)
  | addAutoLoggingCallbacks (context custom_objects : Option PyVal)
  | trainerTrain
  | evaluatorEvaluate
deriving DecidableEq

/-- `frameworks.pytorch.train`: initialize the trainer via
`PyTorchMLRunInterface.init_trainer` (all arguments forwarded verbatim), then,
only if `auto_log`, register the auto-logging callbacks with the given
`context` and `custom_objects`, then run `trainer.train()`. -/
def train (a : TrainArgs) : List CallEvent :=
  [CallEvent.initTrainer a.model a.training_set a.loss_function a.optimizer
      a.validation_set a.metric_functions a.scheduler a.epochs
      a.training_iterations a.validation_iterations a.callbacks_list
      a.use_cuda a.use_horovod]
    ++ (if a.auto_log then
          [CallEvent.addAutoLoggingCallbacks a.context a.custom_objects]
        else [])
    ++ [CallEvent.trainerTrain]

/-- `frameworks.pytorch.evaluate`: initialize the evaluator via
`PyTorchMLRunInterface.init_evaluator` (all arguments forwarded verbatim),
then, only if `auto_log`, register the auto-logging callbacks with the given
`context` and `custom_objects`, then run `evaluator.evaluate()`. -/
def evaluate (b : EvaluateArgs) : List CallEvent :=
  [CallEvent.initEvaluator b.model b.dataset b.loss_function b.metric_functions
      b.iterations b.callbacks_list b.use_cuda b.use_horovod]
    ++ (if b.auto_log then
          [CallEvent.addAutoLoggingCallbacks b.context b.custom_objects]
        else [])
    ++ [CallEvent.evaluatorEvaluate]

/-- A small concrete interface used to exercise the injection pipeline. -/
def sampleInterface : Interface :=
  Interface.mk [("p", PyVal.data 1)] ["m"] ["f"]
    [("m", PyVal.data 2), ("f", PyVal.data 3)]

/-- A small concrete object with one pre-existing attribute. -/
def sampleModel : PyObject := PyObject.mk 7 [("q", PyVal.data 9)]

/-- `sampleModel` after `add_interface sampleInterface`. -/
def sampleEnriched : PyObject :=
  PyObject.mk 7 [("q", PyVal.data 9), ("p", PyVal.data 1),
    ("m", PyVal.bound (PyVal.data 2) 7), ("f", PyVal.data 3)]

/-- `sampleModel` after `_insert_methods` alone. -/
def sampleMethodsEnriched : PyObject :=
  PyObject.mk 7 [("q", PyVal.data 9), ("m", PyVal.bound (PyVal.data 2) 7)]

/-- `sampleModel` after `_insert_functions` alone. -/
def sampleFunctionsEnriched : PyObject :=
  PyObject.mk 7 [("q", PyVal.data 9), ("f", PyVal.data 3)]

/-- Concrete `train` arguments with `auto_log = True`. -/
def sampleTrainArgs : TrainArgs :=
  TrainArgs.mk (PyVal.data 0) (PyVal.data 1) (PyVal.data 2) (PyVal.data 3)
    none none none 1 none none none true false true none none

/-- Concrete `train` arguments with `auto_log = False`. -/
def sampleTrainArgsNoLog : TrainArgs :=
  TrainArgs.mk (PyVal.data 0) (PyVal.data 1) (PyVal.data 2) (PyVal.data 3)
    none none none 1 none none none true false false none none

/-- Concrete `evaluate` arguments with `auto_log = True`. -/
def sampleEvaluateArgs : EvaluateArgs :=
  EvaluateArgs.mk (PyVal.data 0) (PyVal.data 1) none none none none
    true false true none none

/-- Concrete `evaluate` arguments with `auto_log = False`. -/
def sampleEvaluateArgsNoLog : EvaluateArgs :=
  EvaluateArgs.mk (PyVal.data 0) (PyVal.data 1) none none none none
    true false false none none

/-! ### Association list lemmas -/

theorem lookupList_set_self {α : Type} (l : List (String × α)) (n : String) (v : α) :
    lookupList (setAttrList l n v) n = some v := by
  induction l with
  | nil => simp [setAttrList, lookupList]
  | cons p rest ih =>
      by_cases h : p.1 = n
      · simp [setAttrList, h, lookupList]
      · simp [setAttrList, h, lookupList, ih]

theorem lookupList_set_other {α : Type} (l : List (String × α)) (n n' : String)
    (v : α) (h : n' ≠ n) :
    lookupList (setAttrList l n v) n' = lookupList l n' := by
  have hne : ¬ (n = n') := fun e => h e.symm
  induction l with
  | nil => simp [setAttrList, lookupList, hne]
  | cons p rest ih =>
      by_cases hp : p.1 = n
      · simp [setAttrList, hp, lookupList, hne]
      · by_cases hp' : p.1 = n'
        · simp [setAttrList, hp, lookupList, hp', h]
        · simp [setAttrList, hp, lookupList, hp', ih]

theorem mem_keysOf_set {α : Type} (l : List (String × α)) (n m : String) (v : α) :
    m ∈ keysOf (setAttrList l n v) ↔ m ∈ keysOf l ∨ m = n := by
  induction l with
  | nil => simp [setAttrList, keysOf]
  | cons p rest ih =>
      by_cases hp : p.1 = n
      · subst hp
        simp [setAttrList, keysOf] at ih ⊢
        tauto
      · simp [setAttrList, hp, keysOf] at ih ⊢
        tauto

theorem lookupList_isSome_of_mem_keysOf {α : Type} (l : List (String × α))
    (n : String) (h : n ∈ keysOf l) : (lookupList l n).isSome := by
  induction l with
  | nil => simp [keysOf] at h
  | cons p rest ih =>
      simp [keysOf] at h
      by_cases hp : p.1 = n
      · simp [lookupList, hp]
      · rcases h with h | h
        · exact absurd h.symm hp
        · simpa [lookupList, hp] using ih (by simpa [keysOf] using h)

/-! ### Object-level lemmas -/

theorem PyObject.setattr_id (o : PyObject) (n : String) (v : PyVal) :
    (o.setattr n v).id = o.id := rfl

theorem PyObject.mem_dir_setattr (o : PyObject) (n m : String) (v : PyVal) :
    m ∈ (o.setattr n v).dir ↔ m ∈ o.dir ∨ m = n :=
  mem_keysOf_set o.attrs n m v

theorem PyObject.getattr_setattr_self (o : PyObject) (n : String) (v : PyVal) :
    (o.setattr n v).getattr n = some v :=
  lookupList_set_self o.attrs n v

theorem PyObject.getattr_setattr_other (o : PyObject) (n n' : String) (v : PyVal)
    (h : n' ≠ n) : (o.setattr n v).getattr n' = o.getattr n' :=
  lookupList_set_other o.attrs n n' v h

theorem mem_keysOf_cons {α : Type} (p : String × α) (l : List (String × α))
    (n : String) : n ∈ keysOf (p :: l) ↔ n = p.1 ∨ n ∈ keysOf l := by
  simp [keysOf]

theorem mem_keysOf_of_mem {α : Type} {l : List (String × α)} {n : String} {v : α}
    (h : (n, v) ∈ l) : n ∈ keysOf l :=
  List.mem_map_of_mem Prod.fst h

/-! ### Lemmas about `_insert_properties` -/

theorem insertPropertiesLoop_id (props : List (String × PyVal)) :
    ∀ m : PyObject, (MLRunInterface.insertPropertiesLoop props m).id = m.id := by
  induction props with
  | nil => intro m; rfl
  | cons p rest ih =>
      intro m
      by_cases h : p.1 ∈ m.dir
      · simpa [MLRunInterface.insertPropertiesLoop, h] using ih m
      · simpa [MLRunInterface.insertPropertiesLoop, h] using ih (m.setattr p.1 p.2)

theorem insertPropertiesLoop_preserve (props : List (String × PyVal)) :
    ∀ (m : PyObject) (n : String), n ∈ m.dir →
      n ∈ (MLRunInterface.insertPropertiesLoop props m).dir ∧
      (MLRunInterface.insertPropertiesLoop props m).getattr n = m.getattr n := by
  induction props with
  | nil => intro m n hn; exact ⟨hn, rfl⟩
  | cons p rest ih =>
      intro m n hn
      by_cases h : p.1 ∈ m.dir
      · simpa [MLRunInterface.insertPropertiesLoop, h] using ih m n hn
      · have hne : n ≠ p.1 := fun e => h (e ▸ hn)
        have hmem : n ∈ (m.setattr p.1 p.2).dir :=
          (PyObject.mem_dir_setattr m p.1 n p.2).mpr (Or.inl hn)
        have hrec := ih (m.setattr p.1 p.2) n hmem
        rw [PyObject.getattr_setattr_other m p.1 n p.2 hne] at hrec
        simpa [MLRunInterface.insertPropertiesLoop, h] using hrec

theorem insertPropertiesLoop_dir_sub (props : List (String × PyVal)) :
    ∀ (m : PyObject) (n : String),
      n ∈ (MLRunInterface.insertPropertiesLoop props m).dir →
      n ∈ m.dir ∨ n ∈ keysOf props := by
  induction props with
  | nil =>
      intro m n h
      exact Or.inl (by simpa [MLRunInterface.insertPropertiesLoop] using h)
  | cons p rest ih =>
      intro m n h
      by_cases hp : p.1 ∈ m.dir
      · rcases ih m n (by simpa [MLRunInterface.insertPropertiesLoop, hp] using h)
          with h' | h'
        · exact Or.inl h'
        · exact Or.inr ((mem_keysOf_cons p rest n).mpr (Or.inr h'))
      · rcases ih (m.setattr p.1 p.2) n
          (by simpa [MLRunInterface.insertPropertiesLoop, hp] using h) with h' | h'
        · rcases (PyObject.mem_dir_setattr m p.1 n p.2).mp h' with h'' | h''
          · exact Or.inl h''
          · exact Or.inr ((mem_keysOf_cons p rest n).mpr (Or.inl h''))
        · exact Or.inr ((mem_keysOf_cons p rest n).mpr (Or.inr h'))

theorem insertPropertiesLoop_complete (props : List (String × PyVal)) :
    ∀ (m : PyObject) (n : String), n ∈ keysOf props →
      n ∈ (MLRunInterface.insertPropertiesLoop props m).dir := by
  induction props with
  | nil => intro m n hn; simp [keysOf] at hn
  | cons p rest ih =>
      intro m n hn
      rw [mem_keysOf_cons] at hn
      by_cases hp : p.1 ∈ m.dir
      · rcases hn with rfl | hn
        · simpa [MLRunInterface.insertPropertiesLoop, hp] using
            (insertPropertiesLoop_preserve rest m p.1 hp).1
        · simpa [MLRunInterface.insertPropertiesLoop, hp] using ih m n hn
      · rcases hn with rfl | hn
        · have hmem : p.1 ∈ (m.setattr p.1 p.2).dir :=
            (PyObject.mem_dir_setattr m p.1 p.1 p.2).mpr (Or.inr rfl)
          simpa [MLRunInterface.insertPropertiesLoop, hp] using
            (insertPropertiesLoop_preserve rest (m.setattr p.1 p.2) p.1 hmem).1
        · simpa [MLRunInterface.insertPropertiesLoop, hp] using
            ih (m.setattr p.1 p.2) n hn

theorem insertPropertiesLoop_new (props : List (String × PyVal)) :
    ∀ (m : PyObject) (n : String) (v : PyVal), (keysOf props).Nodup →
      (n, v) ∈ props → n ∉ m.dir →
      (MLRunInterface.insertPropertiesLoop props m).getattr n = some v := by
  induction props with
  | nil => intro m n v _ h _; simp at h
  | cons p rest ih =>
      rcases p with ⟨pn, pv⟩
      intro m n v hnd hmem hdir
      have hnd' : (keysOf rest).Nodup :=
        (List.nodup_cons.mp (by simpa [keysOf] using hnd)).2
      have hpn : pn ∉ keysOf rest :=
        (List.nodup_cons.mp (by simpa [keysOf] using hnd)).1
      rcases List.mem_cons.mp hmem with heq | hmem'
      · have h1 : n = pn := congrArg Prod.fst heq
        have h2 : v = pv := congrArg Prod.snd heq
        subst h1; subst h2
        have hmem1 : n ∈ (m.setattr n v).dir :=
          (PyObject.mem_dir_setattr m n n v).mpr (Or.inr rfl)
        have hrec := (insertPropertiesLoop_preserve rest (m.setattr n v) n hmem1).2
        rw [PyObject.getattr_setattr_self m n v] at hrec
        simpa [MLRunInterface.insertPropertiesLoop, hdir] using hrec
      · have hne : n ≠ pn := by
          intro e
          exact hpn (e ▸ mem_keysOf_of_mem hmem')
        by_cases hp : pn ∈ m.dir
        · simpa [MLRunInterface.insertPropertiesLoop, hp] using
            ih m n v hnd' hmem' hdir
        · have hdir1 : n ∉ (m.setattr pn pv).dir := by
            intro hmem1
            rcases (PyObject.mem_dir_setattr m pn n pv).mp hmem1 with h' | h'
            · exact hdir h'
            · exact hne h'
          simpa [MLRunInterface.insertPropertiesLoop, hp] using
            ih (m.setattr pn pv) n v hnd' hmem' hdir1

theorem insertPropertiesLoop_skip_all (props : List (String × PyVal)) :
    ∀ m : PyObject, (∀ n ∈ keysOf props, n ∈ m.dir) →
      MLRunInterface.insertPropertiesLoop props m = m := by
  induction props with
  | nil => intro m h; rfl
  | cons p rest ih =>
      intro m h
      have hp : p.1 ∈ m.dir := h p.1 ((mem_keysOf_cons p rest p.1).mpr (Or.inl rfl))
      simpa [MLRunInterface.insertPropertiesLoop, hp] using
        ih m (fun n hn => h n ((mem_keysOf_cons p rest n).mpr (Or.inr hn)))

/-! ### Lemmas about `_insert_methods` -/

theorem insertMethodsLoop_id (i : Interface) (names : List String) :
    ∀ m m' : PyObject, MLRunInterface.insertMethodsLoop i names m = Except.ok m' →
      m'.id = m.id := by
  induction names with
  | nil =>
      intro m m' h
      simp [MLRunInterface.insertMethodsLoop] at h
      rw [← h]
  | cons nm rest ih =>
      intro m m' h
      by_cases hd : nm ∈ m.dir
      · exact ih m m' (by simpa [MLRunInterface.insertMethodsLoop, hd] using h)
      · cases hca : i.getClassAttr nm with
        | none => simp [MLRunInterface.insertMethodsLoop, hd, hca] at h
        | some f =>
            have h' := ih (m.setattr nm (PyVal.bound f m.id)) m'
              (by simpa [MLRunInterface.insertMethodsLoop, hd, hca] using h)
            simpa [PyObject.setattr_id] using h'

theorem insertMethodsLoop_preserve (i : Interface) (names : List String) :
    ∀ m m' : PyObject, MLRunInterface.insertMethodsLoop i names m = Except.ok m' →
      ∀ n : String, n ∈ m.dir → n ∈ m'.dir ∧ m'.getattr n = m.getattr n := by
  induction names with
  | nil =>
      intro m m' h n hn
      simp [MLRunInterface.insertMethodsLoop] at h
      rw [← h]
      exact ⟨hn, rfl⟩
  | cons nm rest ih =>
      intro m m' h n hn
      by_cases hd : nm ∈ m.dir
      · exact ih m m' (by simpa [MLRunInterface.insertMethodsLoop, hd] using h) n hn
      · cases hca : i.getClassAttr nm with
        | none => simp [MLRunInterface.insertMethodsLoop, hd, hca] at h
        | some f =>
            have hne : n ≠ nm := fun e => hd (e ▸ hn)
            have hmem : n ∈ (m.setattr nm (PyVal.bound f m.id)).dir :=
              (PyObject.mem_dir_setattr m nm n _).mpr (Or.inl hn)
            have hrec := ih (m.setattr nm (PyVal.bound f m.id)) m'
              (by simpa [MLRunInterface.insertMethodsLoop, hd, hca] using h) n hmem
            rwa [PyObject.getattr_setattr_other m nm n _ hne] at hrec

theorem insertMethodsLoop_dir_sub (i : Interface) (names : List String) :
    ∀ m m' : PyObject, MLRunInterface.insertMethodsLoop i names m = Except.ok m' →
      ∀ n : String, n ∈ m'.dir → n ∈ m.dir ∨ n ∈ names := by
  induction names with
  | nil =>
      intro m m' h n hn
      simp [MLRunInterface.insertMethodsLoop] at h
      rw [← h] at hn
      exact Or.inl hn
  | cons nm rest ih =>
      intro m m' h n hn
      by_cases hd : nm ∈ m.dir
      · rcases ih m m' (by simpa [MLRunInterface.insertMethodsLoop, hd] using h) n hn
          with h' | h'
        · exact Or.inl h'
        · exact Or.inr (List.mem_cons_of_mem nm h')
      · cases hca : i.getClassAttr nm with
        | none => simp [MLRunInterface.insertMethodsLoop, hd, hca] at h
        | some f =>
            rcases ih (m.setattr nm (PyVal.bound f m.id)) m'
              (by simpa [MLRunInterface.insertMethodsLoop, hd, hca] using h) n hn
              with h' | h'
            · rcases (PyObject.mem_dir_setattr m nm n _).mp h' with h'' | h''
              · exact Or.inl h''
              · exact Or.inr (h'' ▸ List.mem_cons_self nm rest)
            · exact Or.inr (List.mem_cons_of_mem nm h')

theorem insertMethodsLoop_complete (i : Interface) (names : List String) :
    ∀ m m' : PyObject, MLRunInterface.insertMethodsLoop i names m = Except.ok m' →
      ∀ n : String, n ∈ names → n ∈ m'.dir := by
  induction names with
  | nil => intro m m' h n hn; simp at hn
  | cons nm rest ih =>
      intro m m' h n hn
      by_cases hd : nm ∈ m.dir
      · have h' : MLRunInterface.insertMethodsLoop i rest m = Except.ok m' := by
          simpa [MLRunInterface.insertMethodsLoop, hd] using h
        rcases List.mem_cons.mp hn with rfl | hn'
        · exact (insertMethodsLoop_preserve i rest m m' h' n hd).1
        · exact ih m m' h' n hn'
      · cases hca : i.getClassAttr nm with
        | none => simp [MLRunInterface.insertMethodsLoop, hd, hca] at h
        | some f =>
            have h' : MLRunInterface.insertMethodsLoop i rest
                (m.setattr nm (PyVal.bound f m.id)) = Except.ok m' := by
              simpa [MLRunInterface.insertMethodsLoop, hd, hca] using h
            rcases List.mem_cons.mp hn with rfl | hn'
            · have hmem : n ∈ (m.setattr n (PyVal.bound f m.id)).dir :=
                (PyObject.mem_dir_setattr m n n _).mpr (Or.inr rfl)
              exact (insertMethodsLoop_preserve i rest _ m' h' n hmem).1
            · exact ih _ m' h' n hn'

theorem insertMethodsLoop_new (i : Interface) (names : List String) :
    ∀ m m' : PyObject, MLRunInterface.insertMethodsLoop i names m = Except.ok m' →
      ∀ n : String, n ∈ names → n ∉ m.dir →
      ∃ f, i.getClassAttr n = some f ∧
        m'.getattr n = some (PyVal.bound f m.id) := by
  induction names with
  | nil => intro m m' h n hn; simp at hn
  | cons nm rest ih =>
      intro m m' h n hn hdir
      by_cases hnm : n = nm
      · subst hnm
        cases hca : i.getClassAttr n with
        | none => simp [MLRunInterface.insertMethodsLoop, hdir, hca] at h
        | some f =>
            have h' : MLRunInterface.insertMethodsLoop i rest
                (m.setattr n (PyVal.bound f m.id)) = Except.ok m' := by
              simpa [MLRunInterface.insertMethodsLoop, hdir, hca] using h
            have hmem : n ∈ (m.setattr n (PyVal.bound f m.id)).dir :=
              (PyObject.mem_dir_setattr m n n _).mpr (Or.inr rfl)
            have hval := (insertMethodsLoop_preserve i rest _ m' h' n hmem).2
            rw [PyObject.getattr_setattr_self] at hval
            exact ⟨f, rfl, hval⟩
      · have hn' : n ∈ rest := by
          rcases List.mem_cons.mp hn with h' | h'
          · exact absurd h' hnm
          · exact h'
        by_cases hd : nm ∈ m.dir
        · exact ih m m' (by simpa [MLRunInterface.insertMethodsLoop, hd] using h)
            n hn' hdir
        · cases hca : i.getClassAttr nm with
          | none => simp [MLRunInterface.insertMethodsLoop, hd, hca] at h
          | some f =>
              have h' : MLRunInterface.insertMethodsLoop i rest
                  (m.setattr nm (PyVal.bound f m.id)) = Except.ok m' := by
                simpa [MLRunInterface.insertMethodsLoop, hd, hca] using h
              have hdir1 : n ∉ (m.setattr nm (PyVal.bound f m.id)).dir := by
                intro hmem1
                rcases (PyObject.mem_dir_setattr m nm n _).mp hmem1 with h'' | h''
                · exact hdir h''
                · exact hnm h''
              have hrec := ih _ m' h' n hn' hdir1
              simpa [PyObject.setattr_id] using hrec

theorem insertMethodsLoop_skip_all (i : Interface) (names : List String) :
    ∀ m : PyObject, (∀ n ∈ names, n ∈ m.dir) →
      MLRunInterface.insertMethodsLoop i names m = Except.ok m := by
  induction names with
  | nil => intro m h; rfl
  | cons nm rest ih =>
      intro m h
      have hd : nm ∈ m.dir := h nm (List.mem_cons_self nm rest)
      simpa [MLRunInterface.insertMethodsLoop, hd] using
        ih m (fun n hn => h n (List.mem_cons_of_mem nm hn))

/-! ### Lemmas about `_insert_functions` -/

theorem insertFunctionsLoop_preserve (i : Interface) (names : List String) :
    ∀ m m' : PyObject, MLRunInterface.insertFunctionsLoop i names m = Except.ok m' →
      ∀ n : String, n ∈ m.dir → n ∈ m'.dir ∧ m'.getattr n = m.getattr n := by
  induction names with
  | nil =>
      intro m m' h n hn
      simp [MLRunInterface.insertFunctionsLoop] at h
      rw [← h]
      exact ⟨hn, rfl⟩
  | cons nm rest ih =>
      intro m m' h n hn
      by_cases hd : nm ∈ m.dir
      · exact ih m m' (by simpa [MLRunInterface.insertFunctionsLoop, hd] using h) n hn
      · cases hca : i.getClassAttr nm with
        | none => simp [MLRunInterface.insertFunctionsLoop, hd, hca] at h
        | some f =>
            have hne : n ≠ nm := fun e => hd (e ▸ hn)
            have hmem : n ∈ (m.setattr nm f).dir :=
              (PyObject.mem_dir_setattr m nm n _).mpr (Or.inl hn)
            have hrec := ih (m.setattr nm f) m'
              (by simpa [MLRunInterface.insertFunctionsLoop, hd, hca] using h) n hmem
            rwa [PyObject.getattr_setattr_other m nm n _ hne] at hrec

theorem insertFunctionsLoop_complete (i : Interface) (names : List String) :
    ∀ m m' : PyObject, MLRunInterface.insertFunctionsLoop i names m = Except.ok m' →
      ∀ n : String, n ∈ names → n ∈ m'.dir := by
  induction names with
  | nil => intro m m' h n hn; simp at hn
  | cons nm rest ih =>
      intro m m' h n hn
      by_cases hd : nm ∈ m.dir
      · have h' : MLRunInterface.insertFunctionsLoop i rest m = Except.ok m' := by
          simpa [MLRunInterface.insertFunctionsLoop, hd] using h
        rcases List.mem_cons.mp hn with rfl | hn'
        · exact (insertFunctionsLoop_preserve i rest m m' h' n hd).1
        · exact ih m m' h' n hn'
      · cases hca : i.getClassAttr nm with
        | none => simp [MLRunInterface.insertFunctionsLoop, hd, hca] at h
        | some f =>
            have h' : MLRunInterface.insertFunctionsLoop i rest (m.setattr nm f) =
                Except.ok m' := by
              simpa [MLRunInterface.insertFunctionsLoop, hd, hca] using h
            rcases List.mem_cons.mp hn with rfl | hn'
            · have hmem : n ∈ (m.setattr n f).dir :=
                (PyObject.mem_dir_setattr m n n _).mpr (Or.inr rfl)
              exact (insertFunctionsLoop_preserve i rest _ m' h' n hmem).1
            · exact ih _ m' h' n hn'

theorem insertFunctionsLoop_new (i : Interface) (names : List String) :
    ∀ m m' : PyObject, MLRunInterface.insertFunctionsLoop i names m = Except.ok m' →
      ∀ n : String, n ∈ names → n ∉ m.dir →
      ∃ f, i.getClassAttr n = some f ∧ m'.getattr n = some f := by
  induction names with
  | nil => intro m m' h n hn; simp at hn
  | cons nm rest ih =>
      intro m m' h n hn hdir
      by_cases hnm : n = nm
      · subst hnm
        cases hca : i.getClassAttr n with
        | none => simp [MLRunInterface.insertFunctionsLoop, hdir, hca] at h
        | some f =>
            have h' : MLRunInterface.insertFunctionsLoop i rest (m.setattr n f) =
                Except.ok m' := by
              simpa [MLRunInterface.insertFunctionsLoop, hdir, hca] using h
            have hmem : n ∈ (m.setattr n f).dir :=
              (PyObject.mem_dir_setattr m n n _).mpr (Or.inr rfl)
            have hval := (insertFunctionsLoop_preserve i rest _ m' h' n hmem).2
            rw [PyObject.getattr_setattr_self] at hval
            exact ⟨f, rfl, hval⟩
      · have hn' : n ∈ rest := by
          rcases List.mem_cons.mp hn with h' | h'
          · exact absurd h' hnm
          · exact h'
        by_cases hd : nm ∈ m.dir
        · exact ih m m' (by simpa [MLRunInterface.insertFunctionsLoop, hd] using h)
            n hn' hdir
        · cases hca : i.getClassAttr nm with
          | none => simp [MLRunInterface.insertFunctionsLoop, hd, hca] at h
          | some f =>
              have h' : MLRunInterface.insertFunctionsLoop i rest (m.setattr nm f) =
                  Except.ok m' := by
                simpa [MLRunInterface.insertFunctionsLoop, hd, hca] using h
              have hdir1 : n ∉ (m.setattr nm f).dir := by
                intro hmem1
                rcases (PyObject.mem_dir_setattr m nm n _).mp hmem1 with h'' | h''
                · exact hdir h''
                · exact hnm h''
              exact ih _ m' h' n hn' hdir1

theorem insertFunctionsLoop_skip_all (i : Interface) (names : List String) :
    ∀ m : PyObject, (∀ n ∈ names, n ∈ m.dir) →
      MLRunInterface.insertFunctionsLoop i names m = Except.ok m := by
  induction names with
  | nil => intro m h; rfl
  | cons nm rest ih =>
      intro m h
      have hd : nm ∈ m.dir := h nm (List.mem_cons_self nm rest)
      simpa [MLRunInterface.insertFunctionsLoop, hd] using
        ih m (fun n hn => h n (List.mem_cons_of_mem nm hn))

/-- Splitting the `add_interface` pipeline into its three stages. -/
theorem add_interface_ok_iff (cls : Interface) (model model' : PyObject) :
    MLRunInterface.add_interface cls model = Except.ok model' ↔
    ∃ m2, MLRunInterface._insert_methods
            (MLRunInterface._insert_properties model cls) cls = Except.ok m2 ∧
          MLRunInterface._insert_functions m2 cls = Except.ok model' := by
  unfold MLRunInterface.add_interface
  cases h : MLRunInterface._insert_methods
      (MLRunInterface._insert_properties model cls) cls with
  | error e => simp [h, Bind.bind, Except.bind]
  | ok m2 => simp [h, Bind.bind, Except.bind]

/-! ### Claim theorems for the interface-injection mechanism -/

/-- C1: for every object passed to `add_interface` and for every name listed
in the interface's `_PROPERTIES`, `_METHODS` or `_FUNCTIONS` that is not
already present in the object's `__dir__()`, `add_interface` attaches that
name to the object (the property's default value, the bound method, or the
function respectively), and it attaches no name that is already present:
every pre-existing name keeps its value. (The three name collections of an
interface class are distinct Python identifiers, hence the disjointness
hypotheses; `_PROPERTIES` is a dict, hence the `Nodup` hypothesis.) -/
theorem add_interface_attaches_missing (cls : Interface) (model model' : PyObject)
    (hok : MLRunInterface.add_interface cls model = Except.ok model')
    (hnd : (keysOf cls._PROPERTIES).Nodup)
    (hpm : ∀ n ∈ keysOf cls._PROPERTIES, n ∉ cls._METHODS)
    (hpf : ∀ n ∈ keysOf cls._PROPERTIES, n ∉ cls._FUNCTIONS)
    (hmf : ∀ n ∈ cls._METHODS, n ∉ cls._FUNCTIONS) :
    (∀ n v, (n, v) ∈ cls._PROPERTIES → n ∉ model.dir →
        n ∈ model'.dir ∧ model'.getattr n = some v) ∧
    (∀ n ∈ cls._METHODS, n ∉ model.dir →
        ∃ f, cls.getClassAttr n = some f ∧
          model'.getattr n = some (PyVal.bound f model.id)) ∧
    (∀ n ∈ cls._FUNCTIONS, n ∉ model.dir →
        ∃ f, cls.getClassAttr n = some f ∧ model'.getattr n = some f) ∧
    (∀ n ∈ model.dir, model'.getattr n = model.getattr n) := by
  rcases (add_interface_ok_iff cls model model').mp hok with ⟨m2, hm, hf⟩
  refine ⟨?_, ?_, ?_, ?_⟩
  · intro n v hmem hdir
    have hval1 : (MLRunInterface._insert_properties model cls).getattr n = some v :=
      insertPropertiesLoop_new cls._PROPERTIES model n v hnd hmem hdir
    have hdir1 : n ∈ (MLRunInterface._insert_properties model cls).dir :=
      insertPropertiesLoop_complete cls._PROPERTIES model n (mem_keysOf_of_mem hmem)
    have h2 := insertMethodsLoop_preserve cls cls._METHODS _ m2 hm n hdir1
    have h3 := insertFunctionsLoop_preserve cls cls._FUNCTIONS m2 model' hf n h2.1
    exact ⟨h3.1, by rw [h3.2, h2.2, hval1]⟩
  · intro n hmem hdir
    have hdir1 : n ∉ (MLRunInterface._insert_properties model cls).dir := by
      intro h1
      rcases insertPropertiesLoop_dir_sub cls._PROPERTIES model n h1 with h' | h'
      · exact hdir h'
      · exact (hpm n h') hmem
    obtain ⟨f, hca, hval2⟩ :=
      insertMethodsLoop_new cls cls._METHODS _ m2 hm n hmem hdir1
    have hid : (MLRunInterface._insert_properties model cls).id = model.id :=
      insertPropertiesLoop_id cls._PROPERTIES model
    have hdir2 : n ∈ m2.dir :=
      insertMethodsLoop_complete cls cls._METHODS _ m2 hm n hmem
    have h3 := insertFunctionsLoop_preserve cls cls._FUNCTIONS m2 model' hf n hdir2
    refine ⟨f, hca, ?_⟩
    rw [h3.2, hval2, hid]
  · intro n hmem hdir
    have hdir1 : n ∉ (MLRunInterface._insert_properties model cls).dir := by
      intro h1
      rcases insertPropertiesLoop_dir_sub cls._PROPERTIES model n h1 with h' | h'
      · exact hdir h'
      · exact (hpf n h') hmem
    have hdir2 : n ∉ m2.dir := by
      intro h2
      rcases insertMethodsLoop_dir_sub cls cls._METHODS _ m2 hm n h2 with h' | h'
      · exact hdir1 h'
      · exact (hmf n h') hmem
    exact insertFunctionsLoop_new cls cls._FUNCTIONS m2 model' hf n hmem hdir2
  · intro n hn
    have h1 := insertPropertiesLoop_preserve cls._PROPERTIES model n hn
    have h2 := insertMethodsLoop_preserve cls cls._METHODS _ m2 hm n h1.1
    have h3 := insertFunctionsLoop_preserve cls cls._FUNCTIONS m2 model' hf n h2.1
    rw [h3.2, h2.2]
    exact h1.2

/-- Concrete instantiation of `add_interface_attaches_missing`. -/
theorem add_interface_attaches_missing_witness :
    MLRunInterface.add_interface sampleInterface sampleModel =
      Except.ok sampleEnriched ∧
    (keysOf sampleInterface._PROPERTIES).Nodup ∧
    (∀ n ∈ keysOf sampleInterface._PROPERTIES, n ∉ sampleInterface._METHODS) ∧
    (∀ n ∈ keysOf sampleInterface._PROPERTIES, n ∉ sampleInterface._FUNCTIONS) ∧
    (∀ n ∈ sampleInterface._METHODS, n ∉ sampleInterface._FUNCTIONS) ∧
    ((∀ n v, (n, v) ∈ sampleInterface._PROPERTIES → n ∉ sampleModel.dir →
        n ∈ sampleEnriched.dir ∧ sampleEnriched.getattr n = some v) ∧
     (∀ n ∈ sampleInterface._METHODS, n ∉ sampleModel.dir →
        ∃ f, sampleInterface.getClassAttr n = some f ∧
          sampleEnriched.getattr n = some (PyVal.bound f sampleModel.id)) ∧
     (∀ n ∈ sampleInterface._FUNCTIONS, n ∉ sampleModel.dir →
        ∃ f, sampleInterface.getClassAttr n = some f ∧
          sampleEnriched.getattr n = some f) ∧
     (∀ n ∈ sampleModel.dir, sampleEnriched.getattr n = sampleModel.getattr n)) :=
  ⟨by rfl, by decide, by decide, by decide, by decide,
    add_interface_attaches_missing sampleInterface sampleModel sampleEnriched
      (by rfl) (by decide) (by decide) (by decide) (by decide)⟩

/-- C3: every attribute name already present in the object's `__dir__()`
before `add_interface` keeps its value (and stays present): injection never
overwrites an existing attribute. -/
theorem add_interface_preserves_existing (cls : Interface) (model model' : PyObject)
    (hok : MLRunInterface.add_interface cls model = Except.ok model') :
    ∀ n ∈ model.dir, n ∈ model'.dir ∧ model'.getattr n = model.getattr n := by
  rcases (add_interface_ok_iff cls model model').mp hok with ⟨m2, hm, hf⟩
  intro n hn
  have h1 := insertPropertiesLoop_preserve cls._PROPERTIES model n hn
  have h2 := insertMethodsLoop_preserve cls cls._METHODS _ m2 hm n h1.1
  have h3 := insertFunctionsLoop_preserve cls cls._FUNCTIONS m2 model' hf n h2.1
  refine ⟨h3.1, ?_⟩
  rw [h3.2, h2.2]
  exact h1.2

/-- Concrete instantiation of `add_interface_preserves_existing`. -/
theorem add_interface_preserves_existing_witness :
    MLRunInterface.add_interface sampleInterface sampleModel =
      Except.ok sampleEnriched ∧
    "q" ∈ sampleModel.dir ∧
    ("q" ∈ sampleEnriched.dir ∧
      sampleEnriched.getattr "q" = sampleModel.getattr "q") :=
  ⟨by rfl, by decide,
    add_interface_preserves_existing sampleInterface sampleModel sampleEnriched
      (by rfl) "q" (by decide)⟩

/-- C4: the default `add_interface` body is idempotent: run a second time on
the enriched object it is the identity, because every inserted name is
already in `__dir__()` after the first run and present names are skipped. -/
theorem add_interface_idempotent (cls : Interface) (model model' : PyObject)
    (hok : MLRunInterface.add_interface cls model = Except.ok model') :
    MLRunInterface.add_interface cls model' = Except.ok model' := by
  rcases (add_interface_ok_iff cls model model').mp hok with ⟨m2, hm, hf⟩
  have hprops : ∀ n ∈ keysOf cls._PROPERTIES, n ∈ model'.dir := by
    intro n hn
    have h1 : n ∈ (MLRunInterface._insert_properties model cls).dir :=
      insertPropertiesLoop_complete cls._PROPERTIES model n hn
    have h2 := (insertMethodsLoop_preserve cls cls._METHODS _ m2 hm n h1).1
    exact (insertFunctionsLoop_preserve cls cls._FUNCTIONS m2 model' hf n h2).1
  have hmeth : ∀ n ∈ cls._METHODS, n ∈ model'.dir := by
    intro n hn
    have h2 := insertMethodsLoop_complete cls cls._METHODS _ m2 hm n hn
    exact (insertFunctionsLoop_preserve cls cls._FUNCTIONS m2 model' hf n h2).1
  have hfun : ∀ n ∈ cls._FUNCTIONS, n ∈ model'.dir :=
    fun n hn => insertFunctionsLoop_complete cls cls._FUNCTIONS m2 model' hf n hn
  rw [add_interface_ok_iff]
  refine ⟨model', ?_, ?_⟩
  · have hply : MLRunInterface._insert_properties model' cls = model' :=
      insertPropertiesLoop_skip_all cls._PROPERTIES model' hprops
    rw [hply]
    exact insertMethodsLoop_skip_all cls cls._METHODS model' hmeth
  · exact insertFunctionsLoop_skip_all cls cls._FUNCTIONS model' hfun

/-- Concrete instantiation of `add_interface_idempotent`. -/
theorem add_interface_idempotent_witness :
    MLRunInterface.add_interface sampleInterface sampleModel =
      Except.ok sampleEnriched ∧
    MLRunInterface.add_interface sampleInterface sampleEnriched =
      Except.ok sampleEnriched :=
  ⟨by rfl,
    add_interface_idempotent sampleInterface sampleModel sampleEnriched (by rfl)⟩

/-- C10: names inserted by `_insert_methods` are attached as
`MethodType(getattr(interface, name), model)`, so calling the attached value
passes the target object as the first (`self`) argument; names inserted by
`_insert_functions` are attached exactly as retrieved from the interface
class, with no binding to the target object. -/
theorem insert_methods_bound_insert_functions_plain (i : Interface)
    (m m' mf mf' : PyObject)
    (hm : MLRunInterface._insert_methods m i = Except.ok m')
    (hf : MLRunInterface._insert_functions mf i = Except.ok mf') :
    (∀ n ∈ i._METHODS, n ∉ m.dir →
        ∃ f, i.getClassAttr n = some f ∧
          m'.getattr n = some (PyVal.bound f m.id) ∧
          ∀ args, PyVal.callWith (PyVal.bound f m.id) args =
            (f, PyVal.objRef m.id :: args)) ∧
    (∀ n ∈ i._FUNCTIONS, n ∉ mf.dir →
        ∃ f, i.getClassAttr n = some f ∧ mf'.getattr n = some f) := by
  constructor
  · intro n hn hdir
    obtain ⟨f, hca, hval⟩ := insertMethodsLoop_new i i._METHODS m m' hm n hn hdir
    exact ⟨f, hca, hval, fun args => rfl⟩
  · intro n hn hdir
    exact insertFunctionsLoop_new i i._FUNCTIONS mf mf' hf n hn hdir

/-- Concrete instantiation of `insert_methods_bound_insert_functions_plain`. -/
theorem insert_methods_bound_insert_functions_plain_witness :
    MLRunInterface._insert_methods sampleModel sampleInterface =
      Except.ok sampleMethodsEnriched ∧
    MLRunInterface._insert_functions sampleModel sampleInterface =
      Except.ok sampleFunctionsEnriched ∧
    ((∀ n ∈ sampleInterface._METHODS, n ∉ sampleModel.dir →
        ∃ f, sampleInterface.getClassAttr n = some f ∧
          sampleMethodsEnriched.getattr n = some (PyVal.bound f sampleModel.id) ∧
          ∀ args, PyVal.callWith (PyVal.bound f sampleModel.id) args =
            (f, PyVal.objRef sampleModel.id :: args)) ∧
     (∀ n ∈ sampleInterface._FUNCTIONS, n ∉ sampleModel.dir →
        ∃ f, sampleInterface.getClassAttr n = some f ∧
          sampleFunctionsEnriched.getattr n = some f)) :=
  ⟨by rfl, by rfl,
    insert_methods_bound_insert_functions_plain sampleInterface sampleModel
      sampleMethodsEnriched sampleModel sampleFunctionsEnriched
      (by rfl) (by rfl)⟩

/-! ### Claim theorems for the `Callback` hook protocol -/

/-- C2 (counterexample to the claim as stated): the claim's hook list
includes `on_setup` and `on_call_check`, but the default `on_setup` does not
leave the callback's state unchanged (it stores its arguments in
`_objects`), and the default `on_call_check` does not return `None` (it
returns `True`). -/
theorem callback_hooks_claim_counterexample :
    ((Callback.mk []).on_setup none none none none none none none).1 ≠
      Callback.mk [] ∧
    (Callback.mk []).on_call_check ≠ (Callback.mk [], HookRet.none) := by
  decide

/-- C2 (amended): every lifecycle hook of the `Callback` base class other
than `on_setup` and `on_call_check` has an empty default body: invoked on any
callback instance with any arguments, it returns `None` and leaves the
callback's state unchanged; `on_call_check` also leaves the state unchanged
but returns `True`, and `on_setup` stores its arguments. -/
theorem callback_default_hooks_noop (c : Callback) (rank epoch batch : Int)
    (x y_true y_pred loss_value : PyVal) (metric_values : List PyVal) :
    c.on_horovod_check rank = (c, HookRet.none) ∧
    c.on_run_begin = (c, HookRet.none) ∧
    c.on_run_end = (c, HookRet.none) ∧
    c.on_epoch_begin epoch = (c, HookRet.none) ∧
    c.on_epoch_end epoch = (c, HookRet.none) ∧
    c.on_train_begin = (c, HookRet.none) ∧
    c.on_train_end = (c, HookRet.none) ∧
    c.on_validation_begin = (c, HookRet.none) ∧
    c.on_validation_end loss_value metric_values = (c, HookRet.none) ∧
    c.on_train_batch_begin batch x y_true = (c, HookRet.none) ∧
    c.on_train_batch_end batch x y_true y_pred = (c, HookRet.none) ∧
    c.on_validation_batch_begin batch x y_true = (c, HookRet.none) ∧
    c.on_validation_batch_end batch x y_true y_pred = (c, HookRet.none) ∧
    c.on_train_loss_begin = (c, HookRet.none) ∧
    c.on_train_loss_end loss_value = (c, HookRet.none) ∧
    c.on_validation_loss_begin = (c, HookRet.none) ∧
    c.on_validation_loss_end loss_value = (c, HookRet.none) ∧
    c.on_train_metrics_begin = (c, HookRet.none) ∧
    c.on_train_metrics_end metric_values = (c, HookRet.none) ∧
    c.on_validation_metrics_begin = (c, HookRet.none) ∧
    c.on_validation_metrics_end metric_values = (c, HookRet.none) ∧
    c.on_backward_begin = (c, HookRet.none) ∧
    c.on_backward_end = (c, HookRet.none) ∧
    c.on_optimizer_step_begin = (c, HookRet.none) ∧
    c.on_optimizer_step_end = (c, HookRet.none) ∧
    c.on_scheduler_step_begin = (c, HookRet.none) ∧
    c.on_scheduler_step_end = (c, HookRet.none) ∧
    c.on_call_check = (c, HookRet.bool true) :=
  ⟨rfl, rfl, rfl, rfl, rfl, rfl, rfl, rfl, rfl, rfl, rfl, rfl, rfl, rfl,
   rfl, rfl, rfl, rfl, rfl, rfl, rfl, rfl, rfl, rfl, rfl, rfl, rfl, rfl⟩

/-- C8: the default `on_call_check` returns `True` for every callback
instance (and leaves its state unchanged), so every callback is approved to
run unless a subclass overrides it. -/
theorem on_call_check_returns_true (c : Callback) :
    c.on_call_check = (c, HookRet.bool true) := rfl

/-- C9: `on_setup` unconditionally assigns all seven `_ObjectKeys` entries of
`_objects` to its arguments (each defaults to `None` in the source, `none`
here), overwriting whatever was stored before; on a freshly initialized
callback the dictionary afterwards holds exactly these seven keys with
exactly the passed values, and `on_setup` returns `None`. -/
theorem on_setup_stores_all_objects (c : Callback)
    (model training_set validation_set loss_function optimizer
      metric_functions scheduler : Option PyVal) :
    lookupList ((c.on_setup model training_set validation_set loss_function
        optimizer metric_functions scheduler).1)._objects
      Callback.keyMODEL = some model ∧
    lookupList ((c.on_setup model training_set validation_set loss_function
        optimizer metric_functions scheduler).1)._objects
      Callback.keyTRAINING_SET = some training_set ∧
    lookupList ((c.on_setup model training_set validation_set loss_function
        optimizer metric_functions scheduler).1)._objects
      Callback.keyVALIDATION_SET = some validation_set ∧
    lookupList ((c.on_setup model training_set validation_set loss_function
        optimizer metric_functions scheduler).1)._objects
      Callback.keyLOSS_FUNCTION = some loss_function ∧
    lookupList ((c.on_setup model training_set validation_set loss_function
        optimizer metric_functions scheduler).1)._objects
      Callback.keyOPTIMIZER = some optimizer ∧
    lookupList ((c.on_setup model training_set validation_set loss_function
        optimizer metric_functions scheduler).1)._objects
      Callback.keyMETRIC_FUNCTIONS = some metric_functions ∧
    lookupList ((c.on_setup model training_set validation_set loss_function
        optimizer metric_functions scheduler).1)._objects
      Callback.keySCHEDULER = some scheduler ∧
    (Callback.init.on_setup model training_set validation_set loss_function
        optimizer metric_functions scheduler).1 =
      Callback.mk [(Callback.keyMODEL, model),
        (Callback.keyTRAINING_SET, training_set),
        (Callback.keyVALIDATION_SET, validation_set),
        (Callback.keyLOSS_FUNCTION, loss_function),
        (Callback.keyOPTIMIZER, optimizer),
        (Callback.keyMETRIC_FUNCTIONS, metric_functions),
        (Callback.keySCHEDULER, scheduler)] ∧
    (c.on_setup model training_set validation_set loss_function optimizer
        metric_functions scheduler).2 = HookRet.none := by
  refine ⟨?_, ?_, ?_, ?_, ?_, ?_, ?_, rfl, rfl⟩
  · dsimp only [Callback.on_setup]
    rw [lookupList_set_other _ Callback.keySCHEDULER Callback.keyMODEL
          scheduler (by decide),
        lookupList_set_other _ Callback.keyMETRIC_FUNCTIONS Callback.keyMODEL
          metric_functions (by decide),
        lookupList_set_other _ Callback.keyOPTIMIZER Callback.keyMODEL
          optimizer (by decide),
        lookupList_set_other _ Callback.keyLOSS_FUNCTION Callback.keyMODEL
          loss_function (by decide),
        lookupList_set_other _ Callback.keyVALIDATION_SET Callback.keyMODEL
          validation_set (by decide),
        lookupList_set_other _ Callback.keyTRAINING_SET Callback.keyMODEL
          training_set (by decide),
        lookupList_set_self]
  · dsimp only [Callback.on_setup]
    rw [lookupList_set_other _ Callback.keySCHEDULER Callback.keyTRAINING_SET
          scheduler (by decide),
        lookupList_set_other _ Callback.keyMETRIC_FUNCTIONS
          Callback.keyTRAINING_SET metric_functions (by decide),
        lookupList_set_other _ Callback.keyOPTIMIZER Callback.keyTRAINING_SET
          optimizer (by decide),
        lookupList_set_other _ Callback.keyLOSS_FUNCTION
          Callback.keyTRAINING_SET loss_function (by decide),
        lookupList_set_other _ Callback.keyVALIDATION_SET
          Callback.keyTRAINING_SET validation_set (by decide),
        lookupList_set_self]
  · dsimp only [Callback.on_setup]
    rw [lookupList_set_other _ Callback.keySCHEDULER
          Callback.keyVALIDATION_SET scheduler (by decide),
        lookupList_set_other _ Callback.keyMETRIC_FUNCTIONS
          Callback.keyVALIDATION_SET metric_functions (by decide),
        lookupList_set_other _ Callback.keyOPTIMIZER
          Callback.keyVALIDATION_SET optimizer (by decide),
        lookupList_set_other _ Callback.keyLOSS_FUNCTION
          Callback.keyVALIDATION_SET loss_function (by decide),
        lookupList_set_self]
  · dsimp only [Callback.on_setup]
    rw [lookupList_set_other _ Callback.keySCHEDULER
          Callback.keyLOSS_FUNCTION scheduler (by decide),
        lookupList_set_other _ Callback.keyMETRIC_FUNCTIONS
          Callback.keyLOSS_FUNCTION metric_functions (by decide),
        lookupList_set_other _ Callback.keyOPTIMIZER
          Callback.keyLOSS_FUNCTION optimizer (by decide),
        lookupList_set_self]
  · dsimp only [Callback.on_setup]
    rw [lookupList_set_other _ Callback.keySCHEDULER Callback.keyOPTIMIZER
          scheduler (by decide),
        lookupList_set_other _ Callback.keyMETRIC_FUNCTIONS
          Callback.keyOPTIMIZER metric_functions (by decide),
        lookupList_set_self]
  · dsimp only [Callback.on_setup]
    rw [lookupList_set_other _ Callback.keySCHEDULER
          Callback.keyMETRIC_FUNCTIONS scheduler (by decide),
        lookupList_set_self]
  · dsimp only [Callback.on_setup]
    rw [lookupList_set_self]

/-! ### Claim theorems for `train` / `evaluate` orchestration -/

/-- C5: with `auto_log = True` the auto-logging callbacks are registered on
the initialized trainer/evaluator via `add_auto_logging_callbacks`, receiving
the given `context` and `custom_objects`; with `auto_log = False` no
`add_auto_logging_callbacks` call occurs at all. -/
theorem auto_log_gates_callback_registration (a : TrainArgs) (b : EvaluateArgs) :
    (a.auto_log = true →
      CallEvent.addAutoLoggingCallbacks a.context a.custom_objects ∈ train a) ∧
    (a.auto_log = false →
      ∀ c o, CallEvent.addAutoLoggingCallbacks c o ∉ train a) ∧
    (b.auto_log = true →
      CallEvent.addAutoLoggingCallbacks b.context b.custom_objects ∈ evaluate b) ∧
    (b.auto_log = false →
      ∀ c o, CallEvent.addAutoLoggingCallbacks c o ∉ evaluate b) := by
  refine ⟨?_, ?_, ?_, ?_⟩
  · intro h
    simp [train, h]
  · intro h c o
    simp [train, h]
  · intro h
    simp [evaluate, h]
  · intro h c o
    simp [evaluate, h]

/-- Concrete instantiation of `auto_log_gates_callback_registration`. -/
theorem auto_log_gates_callback_registration_witness :
    sampleTrainArgs.auto_log = true ∧
    (CallEvent.addAutoLoggingCallbacks sampleTrainArgs.context
      sampleTrainArgs.custom_objects ∈ train sampleTrainArgs) ∧
    sampleTrainArgsNoLog.auto_log = false ∧
    (CallEvent.addAutoLoggingCallbacks none none ∉ train sampleTrainArgsNoLog) :=
  ⟨rfl,
   (auto_log_gates_callback_registration sampleTrainArgs sampleEvaluateArgs).1 rfl,
   rfl,
   (auto_log_gates_callback_registration sampleTrainArgsNoLog
      sampleEvaluateArgsNoLog).2.1 rfl none none⟩

/-- C6: `train` (resp. `evaluate`) forwards its `use_horovod` argument — and
every other argument — unchanged to `PyTorchMLRunInterface.init_trainer`
(resp. `init_evaluator`), which is the first call made. -/
theorem use_horovod_forwarded_verbatim (a : TrainArgs) (b : EvaluateArgs) :
    (train a).head? = some (CallEvent.initTrainer a.model a.training_set
      a.loss_function a.optimizer a.validation_set a.metric_functions
      a.scheduler a.epochs a.training_iterations a.validation_iterations
      a.callbacks_list a.use_cuda a.use_horovod) ∧
    (evaluate b).head? = some (CallEvent.initEvaluator b.model b.dataset
      b.loss_function b.metric_functions b.iterations b.callbacks_list
      b.use_cuda b.use_horovod) :=
  ⟨rfl, rfl⟩

/-- C7: `train` and `evaluate` arrange their steps in a fixed order: the
trainer/evaluator is initialized first, then (only if `auto_log`) the
auto-logging callbacks are registered, and only afterwards is the external
loop (`trainer.train()` / `evaluator.evaluate()`) invoked; registration
always precedes the loop call. -/
theorem init_then_callbacks_then_loop (a : TrainArgs) (b : EvaluateArgs) :
    (∃ i j, i < j ∧
      (train a).get? i = some (CallEvent.initTrainer a.model a.training_set
        a.loss_function a.optimizer a.validation_set a.metric_functions
        a.scheduler a.epochs a.training_iterations a.validation_iterations
        a.callbacks_list a.use_cuda a.use_horovod) ∧
      (train a).get? j = some CallEvent.trainerTrain ∧
      (a.auto_log = true → ∃ k, i < k ∧ k < j ∧
        (train a).get? k = some (CallEvent.addAutoLoggingCallbacks a.context
          a.custom_objects))) ∧
    (∃ i j, i < j ∧
      (evaluate b).get? i = some (CallEvent.initEvaluator b.model b.dataset
        b.loss_function b.metric_functions b.iterations b.callbacks_list
        b.use_cuda b.use_horovod) ∧
      (evaluate b).get? j = some CallEvent.evaluatorEvaluate ∧
      (b.auto_log = true → ∃ k, i < k ∧ k < j ∧
        (evaluate b).get? k = some (CallEvent.addAutoLoggingCallbacks b.context
          b.custom_objects))) := by
  constructor
  · cases ha : a.auto_log with
    | true =>
        refine ⟨0, 2, by omega, by simp [train, ha], by simp [train, ha], ?_⟩
        intro _
        exact ⟨1, by omega, by omega, by simp [train, ha]⟩
    | false =>
        refine ⟨0, 1, by omega, by simp [train, ha], by simp [train, ha], ?_⟩
        intro hcontra
        simp [ha] at hcontra
  · cases hb : b.auto_log with
    | true =>
        refine ⟨0, 2, by omega, by simp [evaluate, hb], by simp [evaluate, hb], ?_⟩
        intro _
        exact ⟨1, by omega, by omega, by simp [evaluate, hb]⟩
    | false =>
        refine ⟨0, 1, by omega, by simp [evaluate, hb], by simp [evaluate, hb], ?_⟩
        intro hcontra
        simp [hb] at hcontra

/-- Concrete instantiation of `init_then_callbacks_then_loop`. -/
theorem init_then_callbacks_then_loop_witness :
    (∃ i j, i < j ∧
      (train sampleTrainArgs).get? i = some (CallEvent.initTrainer
        sampleTrainArgs.model sampleTrainArgs.training_set
        sampleTrainArgs.loss_function sampleTrainArgs.optimizer
        sampleTrainArgs.validation_set sampleTrainArgs.metric_functions
        sampleTrainArgs.scheduler sampleTrainArgs.epochs
        sampleTrainArgs.training_iterations
        sampleTrainArgs.validation_iterations sampleTrainArgs.callbacks_list
        sampleTrainArgs.use_cuda sampleTrainArgs.use_horovod) ∧
      (train sampleTrainArgs).get? j = some CallEvent.trainerTrain ∧
      (sampleTrainArgs.auto_log = true → ∃ k, i < k ∧ k < j ∧
        (train sampleTrainArgs).get? k = some
          (CallEvent.addAutoLoggingCallbacks sampleTrainArgs.context
            sampleTrainArgs.custom_objects))) :=
  (init_then_callbacks_then_loop sampleTrainArgs sampleEvaluateArgs).1
